import Mathlib

/-!
Verification development for the LLM-itM proxy core: the middleware module
pipeline (src/modules/base.py, src/modules/manager.py and the concrete
modules), the request monitor store (src/request_monitor.py), and the
chat-completions handler data flow (src/app.py), shallowly embedded in Lean.

Python dictionaries holding request payloads are embedded as the `Payload`
structure (the fields the modules touch), dict-key absence as `Option`,
Python floats for the temperature field as rationals, and wall-clock values
(`time.time()`) as explicit `Nat` parameters supplied by the caller.
-/

namespace LLMitM

/-! Python string primitives, re-implemented structurally so that concrete
evaluations reduce in the kernel.  `pyLower` models `str.lower` (ASCII as in
`Char.toLower`), `pyIn` models `pat in s`, and `pyReplace` models
`s.replace(pat, rep)` (all non-overlapping occurrences, left to right). -/

/-- List-of-chars test: `pat` is a leading segment of `s`. -/
def prefOf : List Char → List Char → Bool
  | [], _ => true
  | _ :: _, [] => false
  | p :: ps, c :: cs => p = c && prefOf ps cs

/-- Occurrence test for `pat` anywhere in `s` (Python `pat in s`). -/
def subOf (pat : List Char) : List Char → Bool
  | [] => pat.isEmpty
  | c :: cs => prefOf pat (c :: cs) || subOf pat cs

/-- Replacement of every non-overlapping occurrence, left to right, with a
fuel argument (set to the input length by `pyReplace`) so the recursion is
structural.  Only used with non-empty patterns, as in the source. -/
def replaceAux (pat rep : List Char) : Nat → List Char → List Char
  | 0, s => s
  | _ + 1, [] => []
  | fuel + 1, c :: cs =>
    if pat ≠ [] && prefOf pat (c :: cs) then
      rep ++ replaceAux pat rep fuel (List.drop pat.length (c :: cs))
    else
      c :: replaceAux pat rep fuel cs

/-- Python `s.replace(pat, rep)` for non-empty `pat`. -/
def pyReplace (s pat rep : String) : String :=
  ⟨replaceAux pat.data rep.data s.data.length s.data⟩

/-- Python `s.lower()` (ASCII case mapping). -/
def pyLower (s : String) : String := ⟨s.data.map Char.toLower⟩

/-- Python `pat in s`. -/
def pyIn (pat s : String) : Bool := subOf pat.data s.data

/-! Settings.  The config manager stores booleans (module toggles,
`enable_caching`) and strings (text and dropdown settings); a settings
snapshot is the mapping passed to every module (`settings` in the source). -/

/-- Value of one configuration setting. -/
inductive SettingVal where
  | b (v : Bool)
  | s (v : String)
  deriving DecidableEq

/-- Settings snapshot: mapping from setting name to value. -/
abbrev Settings := List (String × SettingVal)

/-- Python `settings.get(k, d)`. -/
def getSettingD (st : Settings) (k : String) (d : SettingVal) : SettingVal :=
  ((st.find? (fun e => e.1 = k)).map Prod.snd).getD d

/-- Python truthiness of a setting value (`if value:`): booleans stand for
themselves, a string is truthy iff non-empty. -/
def truthy : SettingVal → Bool
  | .b v => v
  | .s v => v ≠ ""

/-- Python `f"{value}"` for a setting value. -/
def pyStr : SettingVal → String
  | .s v => v
  | .b v => if v then "True" else "False"

/-! Payloads.  One chat message dict and the request/response body fields the
modules inspect; `Option` encodes dict-key absence. -/

/-- One entry of the `messages` list of a chat-completions payload. -/
structure Message where
  role : Option String := none
  content : Option String := none
  deriving DecidableEq, Inhabited

/-- A request (or response) body, restricted to the fields the middleware
modules read or write. -/
structure Payload where
  model : Option String := none
  messages : List Message := []
  temperature : Option ℚ := none
  max_tokens : Option Int := none
  stream : Bool := false
  deriving DecidableEq, Inhabited

/-! Middleware modules (src/modules/base.py): a module has a derived name and
request/response hooks; the public entry points check enablement first. -/

/-- A middleware module: `name` as derived in `BaseModule.__init__`, and the
subclass hooks `_process_request` / `_process_response`. -/
structure Module where
  name : String
  procReq : Payload → Settings → Payload
  procResp : Payload → Settings → Payload

/-- Embeds `BaseModule.is_enabled`: `settings.get(f"use_{name}", True)`,
read through Python truthiness as the caller's `if` does. -/
def Module.is_enabled (m : Module) (st : Settings) : Bool :=
  truthy (getSettingD st ("use_" ++ m.name) (.b true))

/-- Embeds `BaseModule.process_request`: the hook runs only when enabled. -/
def Module.process_request (m : Module) (p : Payload) (st : Settings) : Payload :=
  if m.is_enabled st then m.procReq p st else p

/-- Embeds `BaseModule.process_response`: the hook runs only when enabled. -/
def Module.process_response (m : Module) (p : Payload) (st : Settings) : Payload :=
  if m.is_enabled st then m.procResp p st else p

/-! Concrete modules. -/

/-- The banned-word list of `ContentModerationModule._process_request`. -/
def bannedWords : List String := ["hack", "exploit", "malware"]

/-- Body of the per-message loop of `ContentModerationModule._process_request`:
`content` is the lowered original text, computed once; each banned word found
in it triggers `message["content"].replace(word, "[FILTERED]")` on the
current (original-cased) text.  `message.get("content", "")` is `getD ""`;
when the key is absent no banned word matches, so the write never fires. -/
def moderateMessage (msg : Message) : Message :=
  let content := pyLower (msg.content.getD "")
  bannedWords.foldl
    (fun m w =>
      if pyIn w content then
        { m with content := some (pyReplace (m.content.getD "") w "[FILTERED]") }
      else m)
    msg

/-- Embeds `ContentModerationModule`.  Its `_process_response` rewrites each
choice's content to itself, i.e. it is the identity on the payload. -/
def contentModerationModule : Module where
  name := "contentmoderation"
  procReq := fun p _ => { p with messages := p.messages.map moderateMessage }
  procResp := fun p _ => p

/-- Body of the per-message loop of `TranslationModule._process_request`. -/
def translateMessage (m : Message) : Message :=
  if m.role = some "user" then { m with content := some "What\x27s a cactus?" } else m

/-- Embeds `TranslationModule`; it does not override `_process_response`, so
the response hook is the inherited identity. -/
def translationModule : Module where
  name := "translation"
  procReq := fun p _ => { p with messages := p.messages.map translateMessage }
  procResp := fun p _ => p

/-- Python `float(value)` on a setting value: parsing of strings is supplied
as a parameter (`parseFloat s = none` models `ValueError`); on booleans
Python yields 1.0 / 0.0. -/
def pyFloatOf (parseFloat : String → Option ℚ) : SettingVal → Option ℚ
  | .s v => parseFloat v
  | .b v => some (if v then 1 else 0)

/-- Python `int(value)` on a setting value, analogous to `pyFloatOf`. -/
def pyIntOf (parseInt : String → Option Int) : SettingVal → Option Int
  | .s v => parseInt v
  | .b v => some (if v then 1 else 0)

/-- The per-message loop of the system-prefix block: a message whose role is
`"system"` gets the prefix prepended to `message['content']` — a direct item
access, so a system message without a `content` key raises `KeyError`
(embedded as the `Except.error` branch), aborting the unit at the first such
message; other messages pass through. -/
def sysPromptMessages (spv : SettingVal) : List Message → Except String (List Message)
  | [] => .ok []
  | m :: ms =>
    if m.role = some "system" then
      match m.content with
      | some c =>
        match sysPromptMessages spv ms with
        | .ok ms' => .ok ({ m with content := some (pyStr spv ++ "\n" ++ c) } :: ms')
        | .error e => .error e
      | none => .error "KeyError: \x27content\x27"
    else
      match sysPromptMessages spv ms with
      | .ok ms' => .ok (m :: ms')
      | .error e => .error e

/-- First block of `ResponseFilteringModule._process_request`: when the
`system_prompt_prefix` setting is truthy, prepend it to every system
message's content; the `message['content']` access raises `KeyError` for a
content-less system message, propagated as `Except.error`. -/
def rfSysPromptStep (st : Settings) (p : Payload) : Except String Payload :=
  let spv := getSettingD st "system_prompt_prefix" (.s "")
  if truthy spv then
    match sysPromptMessages spv p.messages with
    | .ok msgs => .ok { p with messages := msgs }
    | .error e => .error e
  else .ok p

/-- Second block: when `temperature_override` is truthy, overwrite
`temperature` with its `float(...)` value; a `ValueError` is swallowed by
`pass`, leaving the field untouched. -/
def rfTempStep (parseFloat : String → Option ℚ) (st : Settings) (p : Payload) :
    Payload :=
  let tov := getSettingD st "temperature_override" (.s "")
  if truthy tov then
    match pyFloatOf parseFloat tov with
    | some q => { p with temperature := some q }
    | none => p
  else p

/-- Third block: when `max_tokens_limit` is truthy, overwrite `max_tokens`
with its `int(...)` value; a `ValueError` is swallowed by `pass`. -/
def rfMaxTokStep (parseInt : String → Option Int) (st : Settings) (p : Payload) :
    Payload :=
  let mtv := getSettingD st "max_tokens_limit" (.s "")
  if truthy mtv then
    match pyIntOf parseInt mtv with
    | some n => { p with max_tokens := some n }
    | none => p
  else p

/-- Embeds `ResponseFilteringModule._process_request` as its three sequential
blocks; a `KeyError` in the first block aborts the unit before the numeric
blocks run.  Because this request hook can raise, the unit is analyzed
through this fallible function rather than the total `Module` record; its
`_process_response` only inspects `response_format` and changes nothing. -/
def responseFilteringProcReq (parseFloat : String → Option ℚ)
    (parseInt : String → Option Int) (p : Payload) (st : Settings) :
    Except String Payload :=
  match rfSysPromptStep st p with
  | .ok p1 => .ok (rfMaxTokStep parseInt st (rfTempStep parseFloat st p1))
  | .error e => .error e

/-! The module manager (src/modules/manager.py). -/

/-- Embeds `ModuleManager.process_request`: fold over the module list,
applying each enabled module in order. -/
def ModuleManager.process_request (mods : List Module) (st : Settings)
    (p : Payload) : Payload :=
  mods.foldl (fun d m => if m.is_enabled st then m.process_request d st else d) p

/-- Embeds `ModuleManager.process_response`, symmetric to the request pass. -/
def ModuleManager.process_response (mods : List Module) (st : Settings)
    (p : Payload) : Payload :=
  mods.foldl (fun d m => if m.is_enabled st then m.process_response d st else d) p

/-- Embeds `ModuleManager.get_module_settings`: every discovered module's
toggle defaults to enabled. -/
def get_module_settings (mods : List Module) : Settings :=
  mods.map (fun m => ("use_" ++ m.name, SettingVal.b true))

/-! The request monitor (src/request_monitor.py).  The record store is a
`deque(maxlen=max_records)` used with `appendleft`, embedded as a list whose
head is the most recent record; `appendleft` at capacity evicts from the
right (the oldest).  `_sanitize_data` deep-copies and changes nothing, so it
is the identity here.  Durations are `(time.time() - start_time) * 1000`; the
elapsed value is taken as an explicit parameter.  The `notifications` field
records the `_notify_observers` event names in order of emission. -/

/-- Embeds the `RequestRecord` dataclass. -/
structure RequestRecord where
  id : String
  timestamp : Nat
  ip_address : String
  method : String
  endpoint : String
  original_request : Payload
  processed_request : Payload
  original_response : Option Payload := none
  processed_response : Option Payload := none
  duration_ms : Option Nat := none
  error : Option String := none
  status : String := "pending"
  deriving DecidableEq, Inhabited

/-- Embeds the `RequestMonitor` state. -/
structure RequestMonitor where
  max_records : Nat
  records : List RequestRecord := []
  notifications : List String := []
  deriving DecidableEq

/-- Embeds `RequestMonitor._find_record`: first record (most recent first)
with the given id, or `none`. -/
def RequestMonitor.find_record (m : RequestMonitor) (request_id : String) :
    Option RequestRecord :=
  m.records.find? (fun r => r.id = request_id)

/-- Embeds `RequestMonitor.start_request`: unconditionally build a `pending`
record, `appendleft` it (evicting beyond `max_records`), notify
`request_started`. -/
def RequestMonitor.start_request (m : RequestMonitor)
    (request_id ip_address method endpoint : String)
    (original_request initial_processed_request : Payload) (now : Nat) :
    RequestMonitor :=
  let record : RequestRecord :=
    { id := request_id, timestamp := now, ip_address := ip_address,
      method := method, endpoint := endpoint,
      original_request := original_request,
      processed_request := initial_processed_request, status := "pending" }
  { m with records := (record :: m.records).take m.max_records,
           notifications := m.notifications ++ ["request_started"] }

/-- In-place mutation of the first record matching an id, as `_find_record`
followed by field assignments performs on the found (most recent) match. -/
def updateFirst (request_id : String) (f : RequestRecord → RequestRecord) :
    List RequestRecord → List RequestRecord
  | [] => []
  | r :: rs =>
    if r.id = request_id then f r :: rs else r :: updateFirst request_id f rs

/-- Embeds `RequestMonitor.complete_request`: if a record with the id exists
(whatever its status), set the responses, duration and `"completed"` on it
and notify `request_completed`; otherwise do nothing. -/
def RequestMonitor.complete_request (m : RequestMonitor) (request_id : String)
    (original_response processed_response : Payload) (elapsed_ms : Nat) :
    RequestMonitor :=
  if (m.find_record request_id).isSome then
    { m with
      records := updateFirst request_id (fun r =>
        { r with original_response := some original_response,
                 processed_response := some processed_response,
                 duration_ms := some elapsed_ms,
                 status := "completed" }) m.records,
      notifications := m.notifications ++ ["request_completed"] }
  else m

/-- Embeds `RequestMonitor.error_request`: if a record with the id exists
(whatever its status), set the error message, duration and `"error"` on it
and notify `request_error`; otherwise do nothing. -/
def RequestMonitor.error_request (m : RequestMonitor) (request_id error : String)
    (elapsed_ms : Nat) : RequestMonitor :=
  if (m.find_record request_id).isSome then
    { m with
      records := updateFirst request_id (fun r =>
        { r with error := some error,
                 duration_ms := some elapsed_ms,
                 status := "error" }) m.records,
      notifications := m.notifications ++ ["request_error"] }
  else m

/-- Python `l[:i]` for an integer bound. -/
def pySliceTo {α : Type} (l : List α) (i : Int) : List α :=
  if 0 ≤ i then l.take i.toNat else l.take ((l.length : Int) + i).toNat

/-- Embeds `RequestMonitor.get_records`: all records most recent first,
sliced by `limit` only when `limit` is truthy (`if limit:`), so both `None`
and `0` return everything.  The per-record `to_dict` projection is a field
renaming and is omitted. -/
def RequestMonitor.get_records (m : RequestMonitor) (limit : Option Int) :
    List RequestRecord :=
  match limit with
  | none => m.records
  | some l => if l ≠ 0 then pySliceTo m.records l else m.records

/-- Embeds `RequestMonitor.get_record`: the record for the id, or `none`
(the not-found signal). -/
def RequestMonitor.get_record (m : RequestMonitor) (request_id : String) :
    Option RequestRecord :=
  m.find_record request_id

/-- Embeds `RequestMonitor.clear_records`. -/
def RequestMonitor.clear_records (m : RequestMonitor) : RequestMonitor :=
  { m with records := [],
           notifications := m.notifications ++ ["records_cleared"] }

/-! A store-operation language over the monitor, for all-sequences claims. -/

/-- One mutating call on the monitor store. -/
inductive MonOp where
  | start (request_id ip_address method endpoint : String)
      (original_request initial_processed_request : Payload) (now : Nat)
  | complete (request_id : String)
      (original_response processed_response : Payload) (elapsed_ms : Nat)
  | fail (request_id error : String) (elapsed_ms : Nat)
  | clear

/-- Interpretation of one store operation. -/
def monStep (m : RequestMonitor) : MonOp → RequestMonitor
  | .start id ip me en o p now => m.start_request id ip me en o p now
  | .complete id o p e => m.complete_request id o p e
  | .fail id err e => m.error_request id err e
  | .clear => m.clear_records

/-- Interpretation of a sequence of store operations. -/
def monRun (m : RequestMonitor) (ops : List MonOp) : RequestMonitor :=
  ops.foldl monStep m

/-- Clock values of the `start` operations of a sequence, in order. -/
def startTimes : List MonOp → List Nat
  | [] => []
  | .start _ _ _ _ _ _ now :: ops => now :: startTimes ops
  | .complete _ _ _ _ :: ops => startTimes ops
  | .fail _ _ _ :: ops => startTimes ops
  | .clear :: ops => startTimes ops

/-! The chat-completions handler (src/app.py).  Two views are embedded: a
heap view of the request phase, where Python objects live in cells and
deep copies allocate fresh cells, making (non-)aliasing expressible; and the
upstream/response phase with its streaming and non-streaming branches. -/

/-- Allocate a fresh cell holding `p` (a `copy.deepcopy` result). -/
def heapAlloc (h : List Payload) (p : Payload) : List Payload × Nat :=
  (h ++ [p], h.length)

/-- Read a cell. -/
def heapRead (h : List Payload) (r : Nat) : Payload :=
  h.getD r default

/-- Overwrite a cell (in-place mutation of the object it holds). -/
def heapWrite (h : List Payload) (r : Nat) (p : Payload) : List Payload :=
  h.set r p

/-- Result of the request phase of `chat_completions`: the final heap, the
cells referenced by the stored record's `original_request` and
`processed_request`, and the in-flight `request_data` cell. -/
structure ReqPhase where
  heap : List Payload
  rec_original_ref : Nat
  rec_processed_ref : Nat
  request_data_ref : Nat

/-- The module loop of `chat_completions`: each enabled module mutates the
`request_data` object in place (the repository's modules all mutate and
return their argument). -/
def pipelineHeapFold (mods : List Module) (st : Settings) (r : Nat)
    (h : List Payload) : List Payload :=
  mods.foldl
    (fun h' m =>
      if m.is_enabled st then heapWrite h' r (m.process_request (heapRead h' r) st)
      else h') h

/-- Embeds the request phase of `chat_completions` (src/app.py:207-231) over
the heap: deep-copy `request.json` into `original_request`, deep-copy again
into `request_data`, let `start_request` store deep copies of its two payload
arguments, run the module loop on `request_data`, then store a deep copy of
the final `request_data` as the record's `processed_request`. -/
def requestPhase (mods : List Module) (st : Settings) (input : Payload) :
    ReqPhase :=
  let h0 : List Payload := [input]
  let a1 := heapAlloc h0 (heapRead h0 0)
  let a2 := heapAlloc a1.1 (heapRead a1.1 a1.2)
  let a3 := heapAlloc a2.1 (heapRead a2.1 a1.2)
  let a4 := heapAlloc a3.1 (heapRead a3.1 a1.2)
  let h5 := pipelineHeapFold mods st a2.2 a4.1
  let a6 := heapAlloc h5 (heapRead h5 a2.2)
  { heap := a6.1, rec_original_ref := a3.2, rec_processed_ref := a6.2,
    request_data_ref := a2.2 }

/-! The upstream phase (src/app.py:234-267). -/

/-- Body returned to the caller. -/
inductive HttpBody where
  | eventStream (body : List String)
  | jsonOk (resp : Payload)
  | jsonError (msg : String)
  deriving DecidableEq

/-- Outcome of the upstream phase: response body, monitor state, and whether
the response-module loop was entered. -/
structure CallResult where
  body : HttpBody
  monitor : RequestMonitor
  responseModulesRan : Bool

/-- The `generate()` relay: one `data: <chunk json>\n\n` frame per chunk as
it arrives, then the `data: [DONE]\n\n` end marker. -/
def streamRelay (chunks : List String) : List String :=
  chunks.map (fun c => "data: " ++ c ++ "\n\n") ++ ["data: [DONE]\n\n"]

/-- Embeds the upstream phase of `chat_completions`: on `stream`, relay the
chunk sequence raw and perform no tracker bookkeeping; otherwise run the
response-module loop, complete the record, and return the processed body; a
raising upstream call lands in the `except` branch, which marks the record
as errored.  Upstream calls are parameters returning either a value or the
raised exception's message. -/
def handleUpstream (mods : List Module) (st : Settings) (request_id : String)
    (request_data : Payload)
    (createStream : Payload → Except String (List String))
    (createSingle : Payload → Except String Payload)
    (m : RequestMonitor) (elapsed_ms : Nat) : CallResult :=
  if request_data.stream then
    match createStream request_data with
    | .ok chunks => ⟨.eventStream (streamRelay chunks), m, false⟩
    | .error e => ⟨.jsonError e, m.error_request request_id e elapsed_ms, false⟩
  else
    match createSingle request_data with
    | .ok original_response =>
      let response_data := ModuleManager.process_response mods st original_response
      ⟨.jsonOk response_data,
        m.complete_request request_id original_response response_data elapsed_ms,
        true⟩
    | .error e => ⟨.jsonError e, m.error_request request_id e elapsed_ms, false⟩

/-! Concrete fixtures shared by counterexamples and witnesses. -/

/-- A payload with every optional field at its dict-absent default. -/
def emptyPayload : Payload := {}

/-- A fresh monitor with capacity 10. -/
def mon10 : RequestMonitor := { max_records := 10 }

/-- The monitor after one `start_request` for id `"A"`. -/
def mA : RequestMonitor :=
  mon10.start_request "A" "ip" "POST" "/x" emptyPayload emptyPayload 1

/-- The record that `start_request` stores in `mA`. -/
def recA : RequestRecord :=
  { id := "A", timestamp := 1, ip_address := "ip", method := "POST",
    endpoint := "/x", original_request := emptyPayload,
    processed_request := emptyPayload }

/-! Helper lemmas about the monitor store. -/

/-- Mutating the first record with a given id commutes with looking it up,
provided the mutation preserves the id. -/
lemma updateFirst_find (request_id : String) (f : RequestRecord → RequestRecord)
    (hf : ∀ r, (f r).id = r.id) :
    ∀ l : List RequestRecord,
      (updateFirst request_id f l).find? (fun r => r.id = request_id) =
        (l.find? (fun r => r.id = request_id)).map f
  | [] => rfl
  | r :: rs => by
    by_cases h : r.id = request_id
    · simp [updateFirst, h, List.find?, hf]
    · simp [updateFirst, h, List.find?, updateFirst_find request_id f hf rs]

/-- `updateFirst` never changes the number of records. -/
lemma updateFirst_length (request_id : String) (f : RequestRecord → RequestRecord) :
    ∀ l : List RequestRecord, (updateFirst request_id f l).length = l.length
  | [] => rfl
  | r :: rs => by
    by_cases h : r.id = request_id <;>
      simp [updateFirst, h, updateFirst_length request_id f rs]

/-- `updateFirst` with a timestamp-preserving mutation leaves the timestamp
sequence unchanged. -/
lemma updateFirst_map_timestamp (request_id : String)
    (f : RequestRecord → RequestRecord)
    (hf : ∀ r, (f r).timestamp = r.timestamp) :
    ∀ l : List RequestRecord,
      (updateFirst request_id f l).map RequestRecord.timestamp =
        l.map RequestRecord.timestamp
  | [] => rfl
  | r :: rs => by
    by_cases h : r.id = request_id <;>
      simp [updateFirst, h, hf, updateFirst_map_timestamp request_id f hf rs]

/-! Claim C1. -/

/-- Claim C1 counterexample: after `start("A")` then `fail("A")` the record is
in the terminal state `error`, yet a subsequent `complete("A")` is not a
no-op — it flips the status to `completed` (while the stale error message
stays behind), because `complete_request` and `error_request` only check that
the id exists, never the current status. -/
theorem C1_terminal_not_preserved :
    ((mA.error_request "A" "boom" 5).get_record "A").map RequestRecord.status
      = some "error" ∧
    (((mA.error_request "A" "boom" 5).complete_request "A" emptyPayload
        emptyPayload 7).get_record "A").map RequestRecord.status
      = some "completed" ∧
    (((mA.error_request "A" "boom" 5).complete_request "A" emptyPayload
        emptyPayload 7).get_record "A").map RequestRecord.error
      = some (some "boom") := by decide

/-- Claim C1 (amended): `complete_request` and `error_request` are no-ops
only when the id is absent from the store.  When a record with the id exists
they overwrite it regardless of its current status — including a terminal
one — setting status `completed` (with responses and duration) respectively
`error` (with message and duration), so `error→completed` and
`completed→error` transitions are possible. -/
theorem C1_complete_fail_overwrite (m : RequestMonitor) (request_id : String)
    (o p : Payload) (e : Nat) (msg : String) :
    (m.find_record request_id = none →
      m.complete_request request_id o p e = m ∧
      m.error_request request_id msg e = m) ∧
    (∀ r, m.find_record request_id = some r →
      ((m.complete_request request_id o p e).find_record request_id).map
          RequestRecord.status = some "completed" ∧
      ((m.complete_request request_id o p e).find_record request_id).map
          RequestRecord.duration_ms = some (some e) ∧
      ((m.error_request request_id msg e).find_record request_id).map
          RequestRecord.status = some "error" ∧
      ((m.error_request request_id msg e).find_record request_id).map
          RequestRecord.error = some (some msg)) := by
  constructor
  · intro h
    have hs : (m.find_record request_id).isSome = false := by rw [h]; rfl
    constructor <;>
      simp [RequestMonitor.complete_request, RequestMonitor.error_request, hs]
  · intro r h
    have h' : m.records.find? (fun r => r.id = request_id) = some r := h
    have hs : (m.records.find? (fun r => r.id = request_id)).isSome = true := by
      rw [h']; rfl
    have hc := updateFirst_find request_id
      (fun r => { r with original_response := some o, processed_response := some p, duration_ms := some e, status := "completed" })
      (fun _ => rfl) m.records
    have he := updateFirst_find request_id
      (fun r => { r with error := some msg, duration_ms := some e, status := "error" })
      (fun _ => rfl) m.records
    rw [h'] at hc he
    refine ⟨?_, ?_, ?_, ?_⟩ <;>
      simp only [RequestMonitor.complete_request, RequestMonitor.error_request,
        hs, if_true, RequestMonitor.find_record, hc, he, Option.map_some']

/-- Witness for `C1_complete_fail_overwrite` at the concrete store `mA`. -/
theorem C1_complete_fail_overwrite_inst :
    ((mA.complete_request "A" emptyPayload emptyPayload 7).find_record "A").map
        RequestRecord.status = some "completed" :=
  ((C1_complete_fail_overwrite mA "A" emptyPayload emptyPayload 7 "boom").2
    recA (by decide)).1

/-! Claim C2. -/

/-- Claim C2 counterexample: `start_request` performs no duplicate-id check —
starting id `"A"` twice simply stores two records with the same id (both
`pending`, both notified), instead of failing with `DuplicateId`. -/
theorem C2_duplicate_start_accepted :
    ((mA.start_request "A" "ip" "POST" "/x" emptyPayload emptyPayload 2).records.map
        RequestRecord.id) = ["A", "A"] ∧
    ((mA.start_request "A" "ip" "POST" "/x" emptyPayload emptyPayload 2).records.map
        RequestRecord.status) = ["pending", "pending"] ∧
    (mA.start_request "A" "ip" "POST" "/x" emptyPayload emptyPayload 2).notifications
      = ["request_started", "request_started"] := by decide

/-- Claim C2 (amended): `start_request` never fails and performs no
duplicate-id check: it always creates a `pending` record, inserts it at the
front, and emits `request_started` — even when the id is already present, in
which case the store simply holds one more record with that id. -/
theorem C2_start_always_inserts (m : RequestMonitor)
    (request_id ip me en : String) (o p : Payload) (now : Nat)
    (hcap : m.records.length < m.max_records) :
    (m.start_request request_id ip me en o p now).records.length
      = m.records.length + 1 ∧
    ((m.start_request request_id ip me en o p now).records.head?.map
        RequestRecord.id) = some request_id ∧
    ((m.start_request request_id ip me en o p now).records.head?.map
        RequestRecord.status) = some "pending" ∧
    (m.start_request request_id ip me en o p now).records.countP
        (fun r => r.id = request_id)
      = m.records.countP (fun r => r.id = request_id) + 1 ∧
    (m.start_request request_id ip me en o p now).notifications
      = m.notifications ++ ["request_started"] := by
  have htake :
      ∀ r : RequestRecord, (r :: m.records).take m.max_records = r :: m.records :=
    fun r => List.take_of_length_le (by simpa using hcap)
  refine ⟨?_, ?_, ?_, ?_, rfl⟩ <;>
    simp [RequestMonitor.start_request, htake, List.countP_cons]

/-- Witness for `C2_start_always_inserts` on the concrete store `mA`, which
already holds a record with id `"A"`. -/
theorem C2_start_always_inserts_inst :
    (mA.start_request "A" "ip" "POST" "/x" emptyPayload emptyPayload 2).records.countP
        (fun r => r.id = "A")
      = mA.records.countP (fun r => r.id = "A") + 1 :=
  (C2_start_always_inserts mA "A" "ip" "POST" "/x" emptyPayload emptyPayload 2
    (by decide)).2.2.2.1

/-! Claim C5. -/

/-- Claim C5 counterexample: with one stored record, `get_records (some 0)`
returns the full list (length 1), not the empty list the claim demands —
`if limit:` treats `0` as no limit. -/
theorem C5_limit_zero_returns_all :
    (mA.get_records (some 0)).length = 1 ∧ mA.records.length = 1 := by decide

/-- Claim C5 (amended): `get_records` truncates only for a truthy limit: a
positive limit returns that many most-recent records, while limit `0`
behaves exactly like an omitted limit and returns every record. -/
theorem C5_truthy_limit_truncates (m : RequestMonitor) (k : Int) :
    (0 < k → m.get_records (some k) = m.records.take k.toNat) ∧
    m.get_records (some 0) = m.records ∧
    m.get_records none = m.records := by
  refine ⟨fun hk => ?_, by simp [RequestMonitor.get_records], rfl⟩
  have hne : k ≠ 0 := by omega
  simp [RequestMonitor.get_records, pySliceTo, hne, le_of_lt hk]

/-- Witness for `C5_truthy_limit_truncates` at limit 1 on `mA`. -/
theorem C5_truthy_limit_truncates_inst :
    mA.get_records (some 1) = mA.records.take 1 :=
  (C5_truthy_limit_truncates mA 1).1 (by decide)

/-! Claim C3. -/

/-- Banned-word folds with no match leave the message unchanged. -/
lemma foldl_filter_skip (content : String) (m0 : Message) :
    ∀ ws : List String, (∀ w ∈ ws, pyIn w content = false) →
      ws.foldl
        (fun m w =>
          if pyIn w content then
            { m with content := some (pyReplace (m.content.getD "") w "[FILTERED]") }
          else m) m0 = m0
  | [], _ => rfl
  | w :: ws, h => by
    have hw : pyIn w content = false := h w (by simp)
    simp only [List.foldl_cons, hw, Bool.false_eq_true, if_false]
    exact foldl_filter_skip content m0 ws (fun w' hw' => h w' (by simp [hw']))

/-- Claim C3 counterexample: the content filter's request phase leaves
`"Hack"` and `"HACK"` untouched (the lowered copy of the content is only used
for detection; the replacement runs on the original casing with the
lowercase word), while the all-lowercase `"hack"` is replaced — refuting the
claim that every capitalization is replaced like `"hack"`. -/
theorem C3_capitalized_not_replaced :
    (contentModerationModule.process_request
        { messages := [{ role := some "user", content := some "tell me about Hack tools" }] }
        []).messages
      = [{ role := some "user", content := some "tell me about Hack tools" }] ∧
    (contentModerationModule.process_request
        { messages := [{ role := some "user", content := some "tell me about HACK tools" }] }
        []).messages
      = [{ role := some "user", content := some "tell me about HACK tools" }] ∧
    (contentModerationModule.process_request
        { messages := [{ role := some "user", content := some "tell me about hack tools" }] }
        []).messages
      = [{ role := some "user", content := some "tell me about [FILTERED] tools" }] := by
  decide

/-- Claim C3 (amended): the request phase of the content filter detects
banned words case-insensitively but replaces only their exact lowercase
spellings with `[FILTERED]`: every message containing no banned word in any
capitalization is left unchanged, lowercase occurrences are replaced, and
capitalized variants such as `"Hack"`/`"HACK"` survive even when the
replacement pass fires for them. -/
theorem C3_lowercase_only_filtering :
    (∀ (p : Payload) (st : Settings),
      (contentModerationModule.procReq p st).messages = p.messages.map moderateMessage) ∧
    (∀ msg : Message,
      (∀ w ∈ bannedWords, pyIn w (pyLower (msg.content.getD "")) = false) →
        moderateMessage msg = msg) ∧
    (moderateMessage { role := some "user", content := some "tell me about hack tools" }
      = { role := some "user", content := some "tell me about [FILTERED] tools" }) ∧
    (moderateMessage { role := some "user", content := some "Hack HACK hack" }
      = { role := some "user", content := some "Hack HACK [FILTERED]" }) := by
  refine ⟨fun p st => rfl, fun msg h => ?_, by decide, by decide⟩
  unfold moderateMessage
  exact foldl_filter_skip _ msg bannedWords h

/-- Witness for `C3_lowercase_only_filtering` at a clean message. -/
theorem C3_lowercase_only_filtering_inst :
    moderateMessage { role := some "user", content := some "hello there" }
      = { role := some "user", content := some "hello there" } :=
  C3_lowercase_only_filtering.2.1 _ (by decide)

/-! Claim C7. -/

/-- A unit used only to instantiate pipeline theorems: it visibly rewrites
the payload in both phases when it runs. -/
def markerUnit : Module where
  name := "marker"
  procReq := fun p _ => { p with model := some "marked-request" }
  procResp := fun p _ => { p with model := some "marked-response" }

/-- Claim C7: a unit whose `use_<name>` setting is mapped to `False` leaves
the payload unchanged in both phases, and drops out of the manager's folds
(the other units still apply, in order, around it); a unit whose `use_<name>`
key is absent from the settings is enabled (fail-open default `True`). -/
theorem C7_disabled_unit_identity (u : Module) (st : Settings) (p : Payload)
    (pre post : List Module) :
    (getSettingD st ("use_" ++ u.name) (.b true) = .b false →
      u.process_request p st = p ∧
      u.process_response p st = p ∧
      ModuleManager.process_request (pre ++ u :: post) st p =
        ModuleManager.process_request post st (ModuleManager.process_request pre st p) ∧
      ModuleManager.process_response (pre ++ u :: post) st p =
        ModuleManager.process_response post st (ModuleManager.process_response pre st p)) ∧
    (st.find? (fun e => e.1 = "use_" ++ u.name) = none → u.is_enabled st = true) := by
  constructor
  · intro h
    have hen : u.is_enabled st = false := by
      simp [Module.is_enabled, h, truthy]
    refine ⟨?_, ?_, ?_, ?_⟩
    · simp [Module.process_request, hen]
    · simp [Module.process_response, hen]
    · simp [ModuleManager.process_request, List.foldl_append, hen]
    · simp [ModuleManager.process_response, List.foldl_append, hen]
  · intro h
    simp [Module.is_enabled, getSettingD, h, truthy]

/-- Witness for `C7_disabled_unit_identity`: the marker unit, disabled by
`use_marker=False`, leaves a payload untouched, and is enabled under empty
settings. -/
theorem C7_disabled_unit_identity_inst :
    markerUnit.process_request emptyPayload [("use_marker", SettingVal.b false)]
      = emptyPayload ∧
    markerUnit.is_enabled [] = true :=
  ⟨((C7_disabled_unit_identity markerUnit [("use_marker", SettingVal.b false)]
      emptyPayload [] []).1 (by decide)).1,
   (C7_disabled_unit_identity markerUnit [] emptyPayload [] []).2 (by decide)⟩

/-! Claim C9. -/

/-- When the system-prompt block completes without raising, it never touches
the numeric fields. -/
lemma rfSysPromptStep_numeric (st : Settings) (p p' : Payload)
    (h : rfSysPromptStep st p = .ok p') :
    p'.temperature = p.temperature ∧ p'.max_tokens = p.max_tokens := by
  unfold rfSysPromptStep at h
  dsimp only at h
  split at h
  · cases hm : sysPromptMessages (getSettingD st "system_prompt_prefix" (.s ""))
        p.messages with
    | ok msgs =>
      rw [hm] at h
      injection h with h
      subst h
      exact ⟨rfl, rfl⟩
    | error e =>
      rw [hm] at h
      cases h
  · injection h with h
    subst h
    exact ⟨rfl, rfl⟩

/-- The system-prompt loop raises at a content-less system message. -/
lemma sysPromptMessages_raises (spv : SettingVal) :
    ∀ ms : List Message,
      (∃ m ∈ ms, m.role = some "system" ∧ m.content = none) →
      ∃ e, sysPromptMessages spv ms = .error e
  | [], h => absurd h (by simp)
  | m :: ms, h => by
    by_cases hr : m.role = some "system"
    · cases hc : m.content with
      | none =>
        exact ⟨"KeyError: \x27content\x27", by simp [sysPromptMessages, hr, hc]⟩
      | some c =>
        have h' : ∃ m' ∈ ms, m'.role = some "system" ∧ m'.content = none := by
          rcases h with ⟨m', hm', hrole, hcont⟩
          rcases List.mem_cons.mp hm' with rfl | hmem
          · rw [hc] at hcont
            cases hcont
          · exact ⟨m', hmem, hrole, hcont⟩
        obtain ⟨e, he⟩ := sysPromptMessages_raises spv ms h'
        exact ⟨e, by simp [sysPromptMessages, hr, hc, he]⟩
    · have h' : ∃ m' ∈ ms, m'.role = some "system" ∧ m'.content = none := by
        rcases h with ⟨m', hm', hrole, hcont⟩
        rcases List.mem_cons.mp hm' with rfl | hmem
        · exact absurd hrole hr
        · exact ⟨m', hmem, hrole, hcont⟩
      obtain ⟨e, he⟩ := sysPromptMessages_raises spv ms h'
      exact ⟨e, by simp [sysPromptMessages, hr, he]⟩

/-- The temperature block never touches `max_tokens`. -/
lemma rfTempStep_max_tokens (parseFloat : String → Option ℚ) (st : Settings)
    (p : Payload) : (rfTempStep parseFloat st p).max_tokens = p.max_tokens := by
  unfold rfTempStep
  dsimp only
  split
  · split <;> rfl
  · rfl

/-- The max-tokens block never touches `temperature`. -/
lemma rfMaxTokStep_temperature (parseInt : String → Option Int) (st : Settings)
    (p : Payload) : (rfMaxTokStep parseInt st p).temperature = p.temperature := by
  unfold rfMaxTokStep
  dsimp only
  split
  · split <;> rfl
  · rfl

/-- Behaviour of the temperature block for a non-empty string setting. -/
lemma rfTempStep_parse (parseFloat : String → Option ℚ) (st : Settings)
    (p : Payload) (v : String)
    (h : getSettingD st "temperature_override" (.s "") = .s v) (hv : v ≠ "") :
    (∀ q, parseFloat v = some q →
      (rfTempStep parseFloat st p).temperature = some q) ∧
    (parseFloat v = none → rfTempStep parseFloat st p = p) := by
  unfold rfTempStep
  rw [h]
  constructor
  · intro q hq
    simp [truthy, hv, pyFloatOf, hq]
  · intro hq
    simp [truthy, hv, pyFloatOf, hq]

/-- Behaviour of the max-tokens block for a non-empty string setting. -/
lemma rfMaxTokStep_parse (parseInt : String → Option Int) (st : Settings)
    (p : Payload) (v : String)
    (h : getSettingD st "max_tokens_limit" (.s "") = .s v) (hv : v ≠ "") :
    (∀ n, parseInt v = some n →
      (rfMaxTokStep parseInt st p).max_tokens = some n) ∧
    (parseInt v = none → rfMaxTokStep parseInt st p = p) := by
  unfold rfMaxTokStep
  rw [h]
  constructor
  · intro n hn
    simp [truthy, hv, pyIntOf, hn]
  · intro hn
    simp [truthy, hv, pyIntOf, hn]

/-- Claim C9: on every run of the request-shaping unit that completes —
i.e. whose system-prefix block did not raise `KeyError` first — a non-empty
`temperature_override` (resp. `max_tokens_limit`) string overwrites
`temperature` with its parsed float (resp. `max_tokens` with its parsed
int), and a string that fails numeric parsing is ignored, leaving the
request's original field value untouched.  The run always completes when
`system_prompt_prefix` is not truthy (its default), and it raises — never
reaching the numeric blocks — when the prefix is truthy and some system
message lacks a `content` key. -/
theorem C9_override_parsing (parseFloat : String → Option ℚ)
    (parseInt : String → Option Int) (st : Settings) (p : Payload) (v : String) :
    (getSettingD st "temperature_override" (.s "") = .s v → v ≠ "" →
      ∀ p', responseFilteringProcReq parseFloat parseInt p st = .ok p' →
        (∀ q, parseFloat v = some q → p'.temperature = some q) ∧
        (parseFloat v = none → p'.temperature = p.temperature)) ∧
    (getSettingD st "max_tokens_limit" (.s "") = .s v → v ≠ "" →
      ∀ p', responseFilteringProcReq parseFloat parseInt p st = .ok p' →
        (∀ n, parseInt v = some n → p'.max_tokens = some n) ∧
        (parseInt v = none → p'.max_tokens = p.max_tokens)) ∧
    (truthy (getSettingD st "system_prompt_prefix" (.s "")) = false →
      responseFilteringProcReq parseFloat parseInt p st
        = .ok (rfMaxTokStep parseInt st (rfTempStep parseFloat st p))) ∧
    ((∃ m ∈ p.messages, m.role = some "system" ∧ m.content = none) →
      truthy (getSettingD st "system_prompt_prefix" (.s "")) = true →
      ∃ e, responseFilteringProcReq parseFloat parseInt p st = .error e) := by
  refine ⟨?_, ?_, ?_, ?_⟩
  · intro h hv p' hrun
    unfold responseFilteringProcReq at hrun
    cases hsys : rfSysPromptStep st p with
    | error e =>
      rw [hsys] at hrun
      cases hrun
    | ok p1 =>
      rw [hsys] at hrun
      injection hrun with hrun
      subst hrun
      constructor
      · intro q hq
        rw [rfMaxTokStep_temperature]
        exact (rfTempStep_parse parseFloat st p1 v h hv).1 q hq
      · intro hq
        rw [rfMaxTokStep_temperature,
          (rfTempStep_parse parseFloat st p1 v h hv).2 hq]
        exact (rfSysPromptStep_numeric st p p1 hsys).1
  · intro h hv p' hrun
    unfold responseFilteringProcReq at hrun
    cases hsys : rfSysPromptStep st p with
    | error e =>
      rw [hsys] at hrun
      cases hrun
    | ok p1 =>
      rw [hsys] at hrun
      injection hrun with hrun
      subst hrun
      constructor
      · intro n hn
        exact (rfMaxTokStep_parse parseInt st _ v h hv).1 n hn
      · intro hn
        rw [(rfMaxTokStep_parse parseInt st _ v h hv).2 hn, rfTempStep_max_tokens]
        exact (rfSysPromptStep_numeric st p p1 hsys).2
  · intro ht
    unfold responseFilteringProcReq rfSysPromptStep
    dsimp only
    simp only [ht, Bool.false_eq_true, if_false]
  · intro hex ht
    obtain ⟨e, he⟩ := sysPromptMessages_raises
      (getSettingD st "system_prompt_prefix" (.s "")) p.messages hex
    refine ⟨e, ?_⟩
    unfold responseFilteringProcReq rfSysPromptStep
    dsimp only
    simp only [ht, if_true, he]

/-- Settings used by the C9 witness. -/
def stC9 : Settings :=
  [("temperature_override", SettingVal.s "1.5"),
   ("max_tokens_limit", SettingVal.s "100")]

/-- The payload the request-shaping unit produces on the C9 witness run. -/
def c9ok : Payload := { temperature := some ((3 : ℚ) / 2), max_tokens := some 100 }

/-- Witness for `C9_override_parsing`: a completing run with parses that
succeed overwrites both fields; one whose parse fails leaves the field
untouched. -/
theorem C9_override_parsing_inst :
    c9ok.temperature = some ((3 : ℚ) / 2) ∧
    c9ok.max_tokens = some 100 ∧
    emptyPayload.temperature = (emptyPayload : Payload).temperature :=
  ⟨((C9_override_parsing (fun _ => some ((3 : ℚ) / 2)) (fun _ => some 100)
      stC9 emptyPayload "1.5").1 (by decide) (by decide) c9ok rfl).1 _ rfl,
   ((C9_override_parsing (fun _ => some ((3 : ℚ) / 2)) (fun _ => some 100)
      stC9 emptyPayload "100").2.1 (by decide) (by decide) c9ok rfl).1 _ rfl,
   ((C9_override_parsing (fun _ => none) (fun _ => none)
      [("temperature_override", SettingVal.s "oops")] emptyPayload "oops").1
      (by decide) (by decide) emptyPayload rfl).2 rfl⟩

/-! Claim C10. -/

/-- Every toggle produced by `get_module_settings` reads back as `True`
(present as `True`, or absent and defaulting to `True`). -/
lemma getSettingD_module_defaults (mods : List Module) (k : String) :
    getSettingD (get_module_settings mods) k (.b true) = .b true := by
  induction mods with
  | nil => rfl
  | cons m ms ih =>
    by_cases h : ("use_" ++ m.name) = k
    · simp [get_module_settings, getSettingD, List.find?, h]
    · simpa [get_module_settings, getSettingD, List.find?, h]
        using ih

/-- Claim C10: the translation unit is enabled under the manager's default
settings (its `use_translation` toggle defaults to `True`); whenever it is
enabled its request phase overwrites the content of every message whose role
is `"user"` with the literal `"What's a cactus?"`, discarding the original
content, and its response phase returns the response unchanged. -/
theorem C10_translation_overwrites_user (mods : List Module) (st : Settings)
    (p : Payload) :
    translationModule.is_enabled (get_module_settings mods) = true ∧
    (translationModule.is_enabled st = true →
      (translationModule.process_request p st).messages =
        p.messages.map (fun m =>
          if m.role = some "user" then { m with content := some "What\x27s a cactus?" }
          else m)) ∧
    translationModule.process_response p st = p := by
  refine ⟨?_, fun h => ?_, ?_⟩
  · simp [Module.is_enabled, getSettingD_module_defaults, truthy]
  · simp only [Module.process_request, h, if_true]
    rfl
  · unfold Module.process_response
    split <;> rfl

/-- Witness for `C10_translation_overwrites_user` on a concrete request with
the unit explicitly enabled. -/
theorem C10_translation_overwrites_user_inst :
    (translationModule.process_request
        { messages := [{ role := some "user", content := some "hi" },
                       { role := some "assistant", content := some "yo" }] }
        [("use_translation", SettingVal.b true)]).messages
      = [{ role := some "user", content := some "What\x27s a cactus?" },
         { role := some "assistant", content := some "yo" }] := by
  rw [(C10_translation_overwrites_user []
      [("use_translation", SettingVal.b true)]
      { messages := [{ role := some "user", content := some "hi" },
                     { role := some "assistant", content := some "yo" }] }).2.1
    (by decide)]
  decide

/-! Claim C8. -/

/-- Claim C8: on a streaming call whose upstream create succeeds, the handler
returns each chunk as a `data: <chunk>` frame in arrival order terminated by
the `data: [DONE]` end marker, the response-module loop never runs, and the
monitor is left exactly as it was — in particular the call's record (started
as `pending`) keeps its record unchanged forever, never completed or
errored. -/
theorem C8_streaming_bypass (mods : List Module) (st : Settings)
    (request_id : String) (request_data : Payload)
    (createStream : Payload → Except String (List String))
    (createSingle : Payload → Except String Payload)
    (m : RequestMonitor) (elapsed_ms : Nat) (chunks : List String)
    (r : RequestRecord)
    (hstream : request_data.stream = true)
    (hok : createStream request_data = .ok chunks)
    (hrec : m.find_record request_id = some r) :
    (handleUpstream mods st request_id request_data createStream createSingle m
        elapsed_ms).body
      = .eventStream
          (chunks.map (fun c => "data: " ++ c ++ "\n\n") ++ ["data: [DONE]\n\n"]) ∧
    (handleUpstream mods st request_id request_data createStream createSingle m
        elapsed_ms).responseModulesRan = false ∧
    (handleUpstream mods st request_id request_data createStream createSingle m
        elapsed_ms).monitor = m ∧
    (handleUpstream mods st request_id request_data createStream createSingle m
        elapsed_ms).monitor.find_record request_id = some r := by
  have hres :
      handleUpstream mods st request_id request_data createStream createSingle m
        elapsed_ms
      = ⟨.eventStream (streamRelay chunks), m, false⟩ := by
    unfold handleUpstream
    rw [hstream, hok]
    rfl
  rw [hres]
  exact ⟨rfl, rfl, rfl, hrec⟩

/-- Witness for `C8_streaming_bypass` on a concrete two-chunk stream over the
store `mA`, whose record `"A"` is pending and stays pending. -/
theorem C8_streaming_bypass_inst :
    (handleUpstream [] [] "A" { stream := true } (fun _ => .ok ["c1", "c2"])
        (fun _ => .error "down") mA 4).responseModulesRan = false ∧
    (handleUpstream [] [] "A" { stream := true } (fun _ => .ok ["c1", "c2"])
        (fun _ => .error "down") mA 4).monitor.find_record "A" = some recA :=
  ⟨(C8_streaming_bypass [] [] "A" { stream := true } (fun _ => .ok ["c1", "c2"])
      (fun _ => .error "down") mA 4 ["c1", "c2"] recA rfl rfl (by decide)).2.1,
   (C8_streaming_bypass [] [] "A" { stream := true } (fun _ => .ok ["c1", "c2"])
      (fun _ => .error "down") mA 4 ["c1", "c2"] recA rfl rfl (by decide)).2.2.2⟩

/-! Claim C4. -/

/-- `start_request` keeps the capacity field. -/
lemma start_request_max (m : RequestMonitor) (id ip me en : String)
    (o p : Payload) (now : Nat) :
    (m.start_request id ip me en o p now).max_records = m.max_records := rfl

/-- `complete_request` keeps the capacity field. -/
lemma complete_request_max (m : RequestMonitor) (id : String) (o p : Payload)
    (e : Nat) : (m.complete_request id o p e).max_records = m.max_records := by
  unfold RequestMonitor.complete_request
  split <;> rfl

/-- `error_request` keeps the capacity field. -/
lemma error_request_max (m : RequestMonitor) (id msg : String) (e : Nat) :
    (m.error_request id msg e).max_records = m.max_records := by
  unfold RequestMonitor.error_request
  split <;> rfl

/-- `complete_request` keeps the stored timestamp sequence. -/
lemma complete_request_map_ts (m : RequestMonitor) (id : String) (o p : Payload)
    (e : Nat) :
    (m.complete_request id o p e).records.map RequestRecord.timestamp
      = m.records.map RequestRecord.timestamp := by
  unfold RequestMonitor.complete_request
  split
  · exact updateFirst_map_timestamp id
      (fun r => { r with original_response := some o, processed_response := some p, duration_ms := some e, status := "completed" })
      (fun _ => rfl) m.records
  · rfl

/-- `error_request` keeps the stored timestamp sequence. -/
lemma error_request_map_ts (m : RequestMonitor) (id msg : String) (e : Nat) :
    (m.error_request id msg e).records.map RequestRecord.timestamp
      = m.records.map RequestRecord.timestamp := by
  unfold RequestMonitor.error_request
  split
  · exact updateFirst_map_timestamp id
      (fun r => { r with error := some msg, duration_ms := some e, status := "error" })
      (fun _ => rfl) m.records
  · rfl

/-- Invariant of every operation sequence: given monotone start clocks, the
store stays within capacity and its timestamps stay descending (most recent
first). -/
lemma monRun_inv : ∀ (ops : List MonOp) (m : RequestMonitor),
    m.records.length ≤ m.max_records →
    (m.records.map RequestRecord.timestamp).Pairwise (fun a b => b ≤ a) →
    (∀ u ∈ m.records.map RequestRecord.timestamp, ∀ t ∈ startTimes ops, u ≤ t) →
    (startTimes ops).Pairwise (· ≤ ·) →
    (monRun m ops).records.length ≤ m.max_records ∧
    ((monRun m ops).records.map RequestRecord.timestamp).Pairwise
      (fun a b => b ≤ a)
  | [], m, h1, h2, _, _ => ⟨h1, h2⟩
  | .start id ip me en o p now :: ops, m, h1, h2, h3, h4 => by
    have hst : startTimes (.start id ip me en o p now :: ops)
        = now :: startTimes ops := rfl
    rw [hst] at h3 h4
    have hnow : ∀ t ∈ startTimes ops, now ≤ t := (List.pairwise_cons.mp h4).1
    have h4' : (startTimes ops).Pairwise (· ≤ ·) := (List.pairwise_cons.mp h4).2
    have hmap : (m.start_request id ip me en o p now).records.map
        RequestRecord.timestamp
        = (now :: m.records.map RequestRecord.timestamp).take m.max_records := by
      simp [RequestMonitor.start_request, List.map_take]
    have hlen : (m.start_request id ip me en o p now).records.length
        ≤ m.max_records := by
      simp [RequestMonitor.start_request, List.length_take]
    have hpair : ((m.start_request id ip me en o p now).records.map
        RequestRecord.timestamp).Pairwise (fun a b => b ≤ a) := by
      rw [hmap]
      refine List.Pairwise.sublist (List.take_sublist _ _) ?_
      exact List.pairwise_cons.mpr
        ⟨fun b hb => h3 b hb now (by simp), h2⟩
    have hcross : ∀ u ∈ (m.start_request id ip me en o p now).records.map
        RequestRecord.timestamp, ∀ t ∈ startTimes ops, u ≤ t := by
      rw [hmap]
      intro u hu t ht
      rcases List.mem_cons.mp (List.mem_of_mem_take hu) with h | h
      · exact h ▸ hnow t ht
      · exact h3 u h t (List.mem_cons_of_mem _ ht)
    have ih := monRun_inv ops (m.start_request id ip me en o p now)
      hlen hpair hcross h4'
    exact ih
  | .complete id o p e :: ops, m, h1, h2, h3, h4 => by
    have hm := complete_request_map_ts m id o p e
    have hl : (m.complete_request id o p e).records.length
        = m.records.length := by
      have := congrArg List.length hm
      simpa using this
    have hmax := complete_request_max m id o p e
    have ih := monRun_inv ops (m.complete_request id o p e)
      (by rw [hl, hmax]; exact h1) (by rw [hm]; exact h2)
      (by rw [hm]; exact h3) h4
    rw [hmax] at ih
    exact ih
  | .fail id msg e :: ops, m, h1, h2, h3, h4 => by
    have hm := error_request_map_ts m id msg e
    have hl : (m.error_request id msg e).records.length = m.records.length := by
      have := congrArg List.length hm
      simpa using this
    have hmax := error_request_max m id msg e
    have ih := monRun_inv ops (m.error_request id msg e)
      (by rw [hl, hmax]; exact h1) (by rw [hm]; exact h2)
      (by rw [hm]; exact h3) h4
    rw [hmax] at ih
    exact ih
  | .clear :: ops, m, _, _, _, h4 => by
    have ih := monRun_inv ops m.clear_records
      (by simp [RequestMonitor.clear_records])
      (by simp [RequestMonitor.clear_records])
      (by simp [RequestMonitor.clear_records]) h4
    exact ih

/-- Scenario B of the spec: capacity 2, three starts in clock order. -/
def scenarioOps : List MonOp :=
  [.start "A" "ip" "POST" "/x" emptyPayload emptyPayload 1,
   .start "B" "ip" "POST" "/x" emptyPayload emptyPayload 2,
   .start "C" "ip" "POST" "/x" emptyPayload emptyPayload 3]

/-- Claim C4: for every operation sequence with monotone start clocks,
`get_records` (no limit) holds at most `max_records` records ordered most
recent first (descending timestamps); and in Scenario B (capacity 2, start
A, B, C) it returns exactly `[C, B]` while `get_record "A"` signals not
found — the oldest record was evicted. -/
theorem C4_store_bounded_ordered :
    (∀ (cap : Nat) (ops : List MonOp),
      (startTimes ops).Pairwise (· ≤ ·) →
      ((monRun { max_records := cap } ops).get_records none).length ≤ cap ∧
      (((monRun { max_records := cap } ops).get_records none).map
          RequestRecord.timestamp).Pairwise (fun a b => b ≤ a)) ∧
    ((monRun { max_records := 2 } scenarioOps).get_records none).map
        RequestRecord.id = ["C", "B"] ∧
    (monRun { max_records := 2 } scenarioOps).get_record "A" = none := by
  refine ⟨fun cap ops h => ?_, by decide, by decide⟩
  exact monRun_inv ops { max_records := cap } (by simp) (by simp) (by simp) h

/-- Witness for `C4_store_bounded_ordered` on Scenario B's operation list. -/
theorem C4_store_bounded_ordered_inst :
    ((monRun { max_records := 2 } scenarioOps).get_records none).length ≤ 2 :=
  (C4_store_bounded_ordered.1 2 scenarioOps (by decide)).1

/-! Claim C6. -/

/-- Reading to the left of an append ignores the appended part. -/
lemma heapRead_append_left (l l' : List Payload) (i : Nat) (hi : i < l.length) :
    heapRead (l ++ l') i = heapRead l i := by
  unfold heapRead List.getD
  rw [List.get?_eq_getElem?, List.get?_eq_getElem?, List.getElem?_append]
  simp [hi]

/-- Reading a freshly appended cell yields its value. -/
lemma heapRead_concat_self (l : List Payload) (x : Payload) :
    heapRead (l ++ [x]) l.length = x := by
  unfold heapRead List.getD
  rw [List.get?_eq_getElem?, List.getElem?_concat_length]
  rfl

/-- The module loop writes only the `request_data` cell: the heap keeps its
size, that cell accumulates the enabled modules' transformations, and every
other cell is untouched. -/
lemma pipelineHeapFold_spec (st : Settings) :
    ∀ (mods : List Module) (h : List Payload) (r : Nat), r < h.length →
      (pipelineHeapFold mods st r h).length = h.length ∧
      heapRead (pipelineHeapFold mods st r h) r =
        mods.foldl
          (fun d u => if u.is_enabled st then u.process_request d st else d)
          (heapRead h r) ∧
      (∀ i, i ≠ r → heapRead (pipelineHeapFold mods st r h) i = heapRead h i)
  | [], _, _, _ => ⟨rfl, rfl, fun _ _ => rfl⟩
  | u :: mods, h, r, hr => by
    by_cases he : u.is_enabled st
    · have hfold : pipelineHeapFold (u :: mods) st r h
          = pipelineHeapFold mods st r
              (heapWrite h r (u.process_request (heapRead h r) st)) := by
        simp [pipelineHeapFold, List.foldl_cons, he]
      have hlen' : (heapWrite h r (u.process_request (heapRead h r) st)).length
          = h.length := List.length_set h r _
      have hr' : r < (heapWrite h r (u.process_request (heapRead h r) st)).length := by
        rw [hlen']; exact hr
      have hread' : heapRead (heapWrite h r (u.process_request (heapRead h r) st)) r
          = u.process_request (heapRead h r) st := by
        unfold heapRead heapWrite List.getD
        rw [List.get?_eq_getElem?, List.getElem?_set_self']
        simp [hr]
      have hother' : ∀ i, i ≠ r →
          heapRead (heapWrite h r (u.process_request (heapRead h r) st)) i
            = heapRead h i := by
        intro i hi
        unfold heapRead heapWrite List.getD
        simp only [List.get?_eq_getElem?]
        rw [List.getElem?_set_ne (Ne.symm hi)]
      obtain ⟨ih1, ih2, ih3⟩ := pipelineHeapFold_spec st mods
        (heapWrite h r (u.process_request (heapRead h r) st)) r hr'
      refine ⟨by rw [hfold, ih1, hlen'], ?_, fun i hi => by
        rw [hfold, ih3 i hi, hother' i hi]⟩
      rw [hfold, ih2, hread']
      simp [List.foldl_cons, he]
    · have hfold : pipelineHeapFold (u :: mods) st r h
          = pipelineHeapFold mods st r h := by
        simp [pipelineHeapFold, List.foldl_cons, he]
      obtain ⟨ih1, ih2, ih3⟩ := pipelineHeapFold_spec st mods h r hr
      refine ⟨by rw [hfold, ih1], ?_, fun i hi => by rw [hfold, ih3 i hi]⟩
      rw [hfold, ih2]
      simp [List.foldl_cons, he]

/-- Scenario A's request payload. -/
def hackPayload : Payload :=
  { messages := [{ role := some "user", content := some "tell me about hack tools" }] }

/-- Claim C6: for every non-streaming call the record's stored
`original_request` cell still holds the payload exactly as received after
the request-phase module loop has run — the loop's in-place writes hit only
the separately deep-copied `request_data` cell — while the record's final
`processed_request` cell holds the full pipeline result; concretely, in
Scenario A the content filter rewrites the processed copy to
`"tell me about [FILTERED] tools"` and the original stays untouched. -/
theorem C6_original_request_untouched (mods : List Module) (st : Settings)
    (input : Payload) :
    heapRead (requestPhase mods st input).heap
        (requestPhase mods st input).rec_original_ref = input ∧
    heapRead (requestPhase mods st input).heap
        (requestPhase mods st input).rec_processed_ref
      = ModuleManager.process_request mods st input ∧
    heapRead (requestPhase [contentModerationModule] [] hackPayload).heap
        (requestPhase [contentModerationModule] [] hackPayload).rec_original_ref
      = hackPayload ∧
    (heapRead (requestPhase [contentModerationModule] [] hackPayload).heap
        (requestPhase [contentModerationModule] [] hackPayload).rec_processed_ref).messages
      = [{ role := some "user", content := some "tell me about [FILTERED] tools" }] := by
  have hreq : requestPhase mods st input =
      { heap := pipelineHeapFold mods st 2 [input, input, input, input, input]
          ++ [heapRead (pipelineHeapFold mods st 2 [input, input, input, input, input]) 2],
        rec_original_ref := 3,
        rec_processed_ref :=
          (pipelineHeapFold mods st 2 [input, input, input, input, input]).length,
        request_data_ref := 2 } := by
    simp [requestPhase, heapAlloc, heapRead]
  obtain ⟨hlen, hread, hother⟩ := pipelineHeapFold_spec st mods
    [input, input, input, input, input] 2 (by simp)
  refine ⟨?_, ?_, by decide, by decide⟩
  · rw [hreq]
    dsimp only
    rw [heapRead_append_left _ _ 3 (by rw [hlen]; simp), hother 3 (by simp)]
    rfl
  · rw [hreq]
    dsimp only
    rw [heapRead_concat_self, hread]
    rfl

end LLMitM
